import Mathlib

/-!
Verification of the gorkd research-job pipeline core.

This file shallowly embeds the algorithmic core of the gorkd repository:
the error taxonomy with its retryability classification
(`crates/gorkd-core/src/traits/errors.rs`), the job state machine
(`crates/gorkd-core/src/job.rs`), the search executor
(`crates/gorkd-core/src/pipeline/executor.rs`), the answer synthesizer and
mock LLM provider (`crates/gorkd-core/src/pipeline/synthesizer.rs`,
`crates/gorkd-core/src/mock/llm.rs`), the LLM registry fallback
(`crates/gorkd-llm/src/registry.rs`), the search fallback provider
(`crates/gorkd-search/src/fallback.rs`), the lenient JSON extraction
(`crates/gorkd-llm/src/anthropic/parser.rs`) and the pipeline orchestrator
(`crates/gorkd-core/src/pipeline/mod.rs`).

Modelling conventions:
* Rust `f32` relevance scores are embedded as `ℚ`; the executor and the
  score clamp only ever compare and order scores, so the embedding is exact
  for every representable input.
* Asynchronous provider calls are embedded as pure functions from the call
  arguments to the call's outcome; call counting is made explicit either by
  threading provider state (the mock LLM) or by returning the trace of
  invoked provider identifiers (the registries).
* Randomly generated opaque identifiers (`SourceId::new()`) are embedded as
  `Nat` values drawn from an explicit counter; no verified property depends
  on their values.
* Timestamps (`created_at` / `updated_at`) are elided: no verified claim
  mentions them.
-/

namespace Gorkd

instance {ε : Type u} {α : Type v} [DecidableEq ε] [DecidableEq α] :
    DecidableEq (Except ε α) := fun a b =>
  match a, b with
  | .error e, .error e' =>
      if h : e = e' then isTrue (by rw [h]) else isFalse (by intro hc; cases hc; exact h rfl)
  | .ok x, .ok y =>
      if h : x = y then isTrue (by rw [h]) else isFalse (by intro hc; cases hc; exact h rfl)
  | .error _, .ok _ => isFalse fun hc => Except.noConfusion hc
  | .ok _, .error _ => isFalse fun hc => Except.noConfusion hc

/-! ## Error taxonomy (crates/gorkd-core/src/traits/errors.rs) -/

/-- `SearchError` from `traits/errors.rs`. -/
inductive SearchError where
  | providerUnavailable (provider : String)
  | rateLimited (provider : String)
  | timeout (timeoutSecs : Nat)
  | invalidQuery (reason : String)
  | network (msg : String)
  | provider (msg : String)
deriving DecidableEq, Repr

/-- `LlmError` from `traits/errors.rs`. -/
inductive LlmError where
  | modelUnavailable (model : String)
  | rateLimited
  | contextLengthExceeded (maxTokens gotTokens : Nat)
  | contentFiltered (reason : String)
  | timeout (timeoutSecs : Nat)
  | network (msg : String)
  | provider (msg : String)
deriving DecidableEq, Repr

/-- `StoreError` from `traits/errors.rs`. -/
inductive StoreError where
  | jobNotFound (id : String)
  | connection (msg : String)
  | query (msg : String)
  | serialization (msg : String)
  | conflict (msg : String)
deriving DecidableEq, Repr

/-- `SearchError::is_retryable` from `traits/errors.rs`. -/
def SearchError.is_retryable : SearchError → Bool
  | .providerUnavailable _ => true
  | .rateLimited _ => true
  | .timeout _ => true
  | .network _ => true
  | _ => false

/-- `LlmError::is_retryable` from `traits/errors.rs`. -/
def LlmError.is_retryable : LlmError → Bool
  | .modelUnavailable _ => true
  | .rateLimited => true
  | .timeout _ => true
  | .network _ => true
  | _ => false

/-- `StoreError::is_retryable` from `traits/errors.rs`. -/
def StoreError.is_retryable : StoreError → Bool
  | .connection _ => true
  | _ => false

/-- Display text of a `SearchError`, mirroring the `thiserror` `#[error]`
format strings in `traits/errors.rs`. -/
def SearchError.display : SearchError → String
  | .providerUnavailable p => "provider not available: " ++ p
  | .rateLimited p => "rate limited by provider: " ++ p
  | .timeout t => "search timeout after " ++ toString t ++ "s"
  | .invalidQuery r => "invalid query: " ++ r
  | .network m => "network error: " ++ m
  | .provider m => "provider error: " ++ m

/-- Display text of an `LlmError`, mirroring the `thiserror` `#[error]`
format strings in `traits/errors.rs`. -/
def LlmError.display : LlmError → String
  | .modelUnavailable m => "model not available: " ++ m
  | .rateLimited => "rate limited by provider"
  | .contextLengthExceeded maxT gotT =>
      "context length exceeded: " ++ toString maxT ++ " tokens max, got " ++ toString gotT
  | .contentFiltered r => "content filtered: " ++ r
  | .timeout t => "synthesis timeout after " ++ toString t ++ "s"
  | .network m => "network error: " ++ m
  | .provider m => "provider error: " ++ m

/-! ## Job state machine (crates/gorkd-core/src/job.rs, error.rs) -/

/-- `JobStatus` from `job.rs`. -/
inductive JobStatus where
  | pending
  | planning
  | searching
  | fetching
  | synthesizing
  | completed
  | failed
deriving DecidableEq, Repr

/-- `JobStatus::is_terminal` from `job.rs`. -/
def JobStatus.is_terminal : JobStatus → Bool
  | .completed => true
  | .failed => true
  | _ => false

/-- `JobStatus::is_active` from `job.rs`. -/
def JobStatus.is_active (s : JobStatus) : Bool :=
  !s.is_terminal

/-- `QueryError` from `error.rs`. -/
inductive QueryError where
  | empty
  | tooLong (max got : Nat)
  | invalidCharacters
deriving DecidableEq, Repr

/-- `MAX_QUERY_LENGTH` from `error.rs`. -/
def MAX_QUERY_LENGTH : Nat := 2000

/-- `validate_query` from `error.rs`. -/
def validate_query (query : String) : Except QueryError Unit :=
  if query.length = 0 then .error .empty
  else if MAX_QUERY_LENGTH < query.length then
    .error (.tooLong MAX_QUERY_LENGTH query.length)
  else .ok ()

/-- `ResearchJob` from `job.rs`. The opaque random job id, the optional
parsed intent and the two timestamps are elided: no verified claim mentions
them. -/
structure ResearchJob where
  query : String
  status : JobStatus
  error_message : Option String
deriving DecidableEq, Repr

/-- `ResearchJob::new` from `job.rs`. -/
def ResearchJob.new (query : String) : Except QueryError ResearchJob :=
  match validate_query query with
  | .error e => .error e
  | .ok _ => .ok { query := query, status := .pending, error_message := none }

/-- `ResearchJob::transition_to` from `job.rs`. -/
def ResearchJob.transition_to (j : ResearchJob) (status : JobStatus) : ResearchJob :=
  { j with status := status }

/-- `ResearchJob::fail` from `job.rs`. -/
def ResearchJob.fail (j : ResearchJob) (message : String) : ResearchJob :=
  { j with status := .failed, error_message := some message }

/-- Job states reachable through the operations the pipeline performs:
creation via `ResearchJob::new`, `transition_to` with a non-terminal or
`Completed` target, and `fail`.  `Pipeline::run` only ever operates on a
job whose status is still active (it returns immediately after any
transition into a terminal status), which the `is_terminal = false` guards
record. -/
inductive Reachable : ResearchJob → Prop where
  | created (q : String) (j : ResearchJob) :
      ResearchJob.new q = .ok j → Reachable j
  | step (j : ResearchJob) (s : JobStatus) :
      Reachable j → j.status.is_terminal = false →
      (s.is_terminal = false ∨ s = .completed) →
      Reachable (j.transition_to s)
  | failStep (j : ResearchJob) (msg : String) :
      Reachable j → j.status.is_terminal = false →
      Reachable (j.fail msg)

/-! ## C8 and C9 -/

/-- C8: across the search, LLM and store error taxonomies, `is_retryable`
holds exactly for the transient/capacity kinds (provider/model unavailable,
rate limited, timeout, network failure, storage connection failure) and is
false for every caller-caused or policy kind (invalid query, content
filtered, context length exceeded, not found, conflict, generic provider
error, query/serialization failure). -/
theorem error_retryability_classification :
    (∀ e : SearchError, e.is_retryable = true ↔
      ((∃ p, e = .providerUnavailable p) ∨ (∃ p, e = .rateLimited p) ∨
        (∃ t, e = .timeout t) ∨ (∃ m, e = .network m))) ∧
    (∀ e : SearchError, e.is_retryable = false ↔
      ((∃ r, e = .invalidQuery r) ∨ (∃ m, e = .provider m))) ∧
    (∀ e : LlmError, e.is_retryable = true ↔
      ((∃ m, e = .modelUnavailable m) ∨ e = .rateLimited ∨
        (∃ t, e = .timeout t) ∨ (∃ m, e = .network m))) ∧
    (∀ e : LlmError, e.is_retryable = false ↔
      ((∃ a b, e = .contextLengthExceeded a b) ∨ (∃ r, e = .contentFiltered r) ∨
        (∃ m, e = .provider m))) ∧
    (∀ e : StoreError, e.is_retryable = true ↔ (∃ m, e = .connection m)) ∧
    (∀ e : StoreError, e.is_retryable = false ↔
      ((∃ i, e = .jobNotFound i) ∨ (∃ m, e = .query m) ∨
        (∃ m, e = .serialization m) ∨ (∃ m, e = .conflict m))) := by
  refine ⟨?_, ?_, ?_, ?_, ?_, ?_⟩ <;> intro e <;> cases e <;>
    simp [SearchError.is_retryable, LlmError.is_retryable, StoreError.is_retryable]

/-- C9: every job state reachable from a freshly created job via the
operations the pipeline performs satisfies: `error_message` is set if and
only if the status is `Failed`. -/
theorem job_error_message_iff_failed (j : ResearchJob) (h : Reachable j) :
    j.error_message ≠ none ↔ j.status = .failed := by
  induction h with
  | created q j hnew =>
      unfold ResearchJob.new at hnew
      cases hval : validate_query q with
      | error e => rw [hval] at hnew; exact absurd hnew (by simp)
      | ok u =>
          rw [hval] at hnew
          simp only [Except.ok.injEq] at hnew
          subst hnew
          simp
  | step j s _ hactive hs ih =>
      have hjne : j.status ≠ .failed := by
        intro hcontra
        rw [hcontra] at hactive
        simp [JobStatus.is_terminal] at hactive
      have hem : j.error_message = none := by
        by_contra hne
        exact hjne (ih.mp hne)
      have hsne : s ≠ .failed := by
        rcases hs with hs | hs
        · intro hcontra; rw [hcontra] at hs; simp [JobStatus.is_terminal] at hs
        · intro hcontra; rw [hcontra] at hs; exact absurd hs (by simp)
      simp [ResearchJob.transition_to, hem, hsne]
  | failStep j msg _ _ _ =>
      simp [ResearchJob.fail]

/-- Witness for C9: a freshly created job that the pipeline fails satisfies
the invariant (error message set, status `Failed`). -/
theorem job_error_message_iff_failed_witness :
    (ResearchJob.fail { query := "What is Rust?", status := .pending, error_message := none }
        "No sources found for query").error_message ≠ none ↔
      (ResearchJob.fail { query := "What is Rust?", status := .pending, error_message := none }
        "No sources found for query").status = .failed :=
  job_error_message_iff_failed _
    (Reachable.failStep _ _
      (Reachable.created "What is Rust?" _ rfl)
      rfl)

/-! ## Sources and search results (crates/gorkd-core/src/source.rs, traits/search.rs, search.rs) -/

/-- Clamp to `[0, 1]`, mirroring `score.clamp(0.0, 1.0)`. -/
def clamp01 (q : ℚ) : ℚ := min 1 (max 0 q)

/-- `Source` from `source.rs`.  The random opaque `SourceId` is embedded as
a `Nat` drawn from an explicit counter; the extraction metadata (domain,
published date, author, word count) is elided: no verified claim mentions
it. -/
structure Source where
  id : Nat
  url : String
  title : String
  content : String
  relevance_score : ℚ
deriving DecidableEq, Repr

/-- `Source::new` from `source.rs`, with the freshly generated `SourceId`
passed explicitly. -/
def Source.new (id : Nat) (url title content : String) : Source :=
  { id := id, url := url, title := title, content := content, relevance_score := 0 }

/-- `Source::with_relevance_score` from `source.rs`. -/
def Source.with_relevance_score (s : Source) (score : ℚ) : Source :=
  { s with relevance_score := clamp01 score }

/-- `SearchFilters` are optional and unused by the verified components;
`SearchQuery` from `search.rs` keeps only the query text. -/
structure SearchQuery where
  text : String
deriving DecidableEq, Repr

/-- `SearchQuery::new` from `search.rs`. -/
def SearchQuery.new (text : String) : SearchQuery := { text := text }

/-- `SearchPlan` from `search.rs` (provider ids as plain strings). -/
structure SearchPlan where
  queries : List SearchQuery
  providers : List String
  max_sources : Nat
  timeout_secs : Nat
deriving DecidableEq, Repr

/-- `SearchPlan::new` from `search.rs` (`DEFAULT_MAX_SOURCES = 10`,
`DEFAULT_TIMEOUT_SECS = 30`). -/
def SearchPlan.new (queries : List SearchQuery) (providers : List String) : SearchPlan :=
  { queries := queries, providers := providers, max_sources := 10, timeout_secs := 30 }

/-- `SearchResult` from `traits/search.rs`. -/
structure SearchResult where
  url : String
  title : String
  snippet : String
  score : ℚ
deriving DecidableEq, Repr

/-- `SearchResult::new` from `traits/search.rs`. -/
def SearchResult.new (url title snippet : String) : SearchResult :=
  { url := url, title := title, snippet := snippet, score := 0 }

/-- `SearchResult::with_score` from `traits/search.rs`. -/
def SearchResult.with_score (r : SearchResult) (score : ℚ) : SearchResult :=
  { r with score := clamp01 score }

/-- `SearchResult::into_source` from `traits/search.rs`, with the freshly
generated `SourceId` passed explicitly. -/
def SearchResult.into_source (r : SearchResult) (id : Nat) (content : String) : Source :=
  (Source.new id r.url r.title content).with_relevance_score r.score

/-! ## Search executor (crates/gorkd-core/src/pipeline/executor.rs) -/

/-- `ExecutorConfig` from `executor.rs`. -/
structure ExecutorConfig where
  max_sources : Nat
  min_score : ℚ
deriving DecidableEq, Repr

/-- `ExecutorConfig::default` from `executor.rs`. -/
def ExecutorConfig.mkDefault : ExecutorConfig :=
  { max_sources := 10, min_score := 0 }

/-- A search capability: the outcome of invoking the provider on a query. -/
def SearchCapability : Type := SearchQuery → Except SearchError (List SearchResult)

/-- The content string built for each surviving result:
`format!("Content fetched from source. Query: {}", query.text)`. -/
def contentFor (queryText : String) : String :=
  "Content fetched from source. Query: " ++ queryText

/-- The body of the executor's inner `for result in results` loop: the state
is `(seen_urls, all_sources, next fresh id)` and `p` pairs a search result
with the text of the query that produced it. -/
def stepResult (cfg : ExecutorConfig) (p : SearchResult × String)
    (st : List String × List Source × Nat) : List String × List Source × Nat :=
  let (seen, acc, next) := st
  if p.1.url ∈ seen then (seen, acc, next)
  else
    let seen' := p.1.url :: seen
    if p.1.score < cfg.min_score then (seen', acc, next)
    else (seen', acc ++ [p.1.into_source next (contentFor p.2)], next + 1)

/-- The executor's inner loop over one batch of results. -/
def gather (cfg : ExecutorConfig) :
    List (SearchResult × String) → List String × List Source × Nat →
      List String × List Source × Nat
  | [], st => st
  | p :: rest, st => gather cfg rest (stepResult cfg p st)

/-- The executor's outer `for query in &plan.queries` loop: invoke the
capability once per query (aborting the whole execution on the first
capability error) and accumulate the deduplicated, score-filtered sources. -/
def Executor.executeLoop (cfg : ExecutorConfig) (provider : SearchCapability) :
    List SearchQuery → List String × List Source × Nat →
      Except SearchError (List String × List Source × Nat)
  | [], st => .ok st
  | q :: rest, st =>
    match provider q with
    | .error e => .error e
    | .ok results =>
        Executor.executeLoop cfg provider rest
          (gather cfg (results.map (fun r => (r, q.text))) st)

/-- Descending relevance-score order used by the executor's
`sort_by(|a, b| b.relevance_score.partial_cmp(&a.relevance_score))`. -/
def scoreDesc (a b : Source) : Prop := b.relevance_score ≤ a.relevance_score

instance : DecidableRel scoreDesc := fun a b =>
  inferInstanceAs (Decidable (b.relevance_score ≤ a.relevance_score))

/-- `Executor::execute` from `executor.rs`: run the plan's queries, then
sort the accumulated sources by relevance score descending (Rust's
`sort_by` is a stable sort, as is `List.insertionSort`) and truncate to the
configured maximum. -/
def Executor.execute (cfg : ExecutorConfig) (provider : SearchCapability)
    (plan : SearchPlan) : Except SearchError (List Source) :=
  match Executor.executeLoop cfg provider plan.queries ([], [], 0) with
  | .error e => .error e
  | .ok (_, acc, _) => .ok ((acc.insertionSort scoreDesc).take cfg.max_sources)

/-- The accumulated stream of results across all queries of a plan, each
paired with the text of the query that produced it (the order in which the
executor's inner loop visits them). -/
def planResults (provider : SearchCapability) :
    List SearchQuery → Except SearchError (List (SearchResult × String))
  | [] => .ok []
  | q :: rest =>
    match provider q with
    | .error e => .error e
    | .ok results =>
        match planResults provider rest with
        | .error e => .error e
        | .ok tail => .ok (results.map (fun r => (r, q.text)) ++ tail)

/-- The first result in the accumulated stream carrying the given URL. -/
def firstOcc (pairs : List (SearchResult × String)) (url : String) :
    Option (SearchResult × String) :=
  pairs.find? (fun p => p.1.url == url)

/-- `s` is the `Source` the executor builds from the stream entry `p`
(field-wise; the opaque id is existentially fresh and not constrained). -/
def builtFrom (s : Source) (p : SearchResult × String) : Prop :=
  s.url = p.1.url ∧ s.title = p.1.title ∧ s.content = contentFor p.2 ∧
    s.relevance_score = clamp01 p.1.score

instance (s : Source) (p : SearchResult × String) : Decidable (builtFrom s p) := by
  unfold builtFrom; infer_instance

/-- The full accumulated source list of a stream, before sorting and
truncation. -/
def gatherAll (cfg : ExecutorConfig) (pairs : List (SearchResult × String)) : List Source :=
  (gather cfg pairs ([], [], 0)).2.1

/-! ## Executor lemmas -/

theorem gather_append (cfg : ExecutorConfig) (xs ys : List (SearchResult × String))
    (st : List String × List Source × Nat) :
    gather cfg (xs ++ ys) st = gather cfg ys (gather cfg xs st) := by
  induction xs generalizing st with
  | nil => simp [gather]
  | cons p rest ih => simp [gather, ih]

theorem executeLoop_eq_planResults (cfg : ExecutorConfig) (provider : SearchCapability) :
    ∀ (queries : List SearchQuery) (st : List String × List Source × Nat),
      Executor.executeLoop cfg provider queries st =
        (planResults provider queries).map (fun pairs => gather cfg pairs st) := by
  intro queries
  induction queries with
  | nil => intro st; simp [Executor.executeLoop, planResults, Except.map, gather]
  | cons q rest ih =>
      intro st
      cases hq : provider q with
      | error e => simp [Executor.executeLoop, planResults, hq, Except.map]
      | ok results =>
          simp only [Executor.executeLoop, planResults, hq]
          rw [ih]
          cases planResults provider rest with
          | error e => simp [Except.map]
          | ok tail => simp [Except.map, gather_append]

theorem gather_acc_mono (cfg : ExecutorConfig) :
    ∀ (pairs : List (SearchResult × String)) (st : List String × List Source × Nat),
      st.2.1 ⊆ (gather cfg pairs st).2.1 := by
  intro pairs
  induction pairs with
  | nil => intro st; simp [gather]
  | cons p rest ih =>
      intro st
      obtain ⟨seen, acc, next⟩ := st
      have hstep : acc ⊆ (stepResult cfg p (seen, acc, next)).2.1 := by
        unfold stepResult
        by_cases h1 : p.1.url ∈ seen
        · simp [h1]
        · by_cases h2 : p.1.score < cfg.min_score
          · simp [h1, h2]
          · simp [h1, h2]
      exact fun s hs => ih (stepResult cfg p (seen, acc, next)) (hstep hs)

theorem gather_mem (cfg : ExecutorConfig) :
    ∀ (pairs : List (SearchResult × String)) (seen : List String) (acc : List Source)
      (next : Nat) (s : Source),
      s ∈ (gather cfg pairs (seen, acc, next)).2.1 →
      s ∈ acc ∨ ∃ p, p.1.url ∉ seen ∧ firstOcc pairs p.1.url = some p ∧
        cfg.min_score ≤ p.1.score ∧ builtFrom s p := by
  intro pairs
  induction pairs with
  | nil =>
      intro seen acc next s hs
      exact Or.inl (by simpa [gather] using hs)
  | cons p rest ih =>
      intro seen acc next s hs
      by_cases hseen : p.1.url ∈ seen
      · have hs' : s ∈ (gather cfg rest (seen, acc, next)).2.1 := by
          simpa [gather, stepResult, hseen] using hs
        rcases ih seen acc next s hs' with h | ⟨p', hnot, hfind, hmin, hb⟩
        · exact Or.inl h
        · refine Or.inr ⟨p', hnot, ?_, hmin, hb⟩
          rw [firstOcc, List.find?_cons_of_neg]
          · exact hfind
          · simp only [beq_iff_eq]
            intro hurl
            exact hnot (hurl ▸ hseen)
      · by_cases hscore : p.1.score < cfg.min_score
        · have hs' : s ∈ (gather cfg rest (p.1.url :: seen, acc, next)).2.1 := by
            simpa [gather, stepResult, hseen, hscore] using hs
          rcases ih _ acc next s hs' with h | ⟨p', hnot, hfind, hmin, hb⟩
          · exact Or.inl h
          · have hne : p'.1.url ≠ p.1.url := fun h => hnot (h ▸ List.mem_cons_self _ _)
            refine Or.inr ⟨p', fun hmem => hnot (List.mem_cons_of_mem _ hmem), ?_, hmin, hb⟩
            rw [firstOcc, List.find?_cons_of_neg]
            · exact hfind
            · simp only [beq_iff_eq]
              exact fun hurl => hne hurl.symm
        · have hs' : s ∈ (gather cfg rest
              (p.1.url :: seen, acc ++ [p.1.into_source next (contentFor p.2)], next + 1)).2.1 := by
            simpa [gather, stepResult, hseen, hscore] using hs
          rcases ih _ _ _ s hs' with h | ⟨p', hnot, hfind, hmin, hb⟩
          · rcases List.mem_append.mp h with h | h
            · exact Or.inl h
            · have hsval : s = p.1.into_source next (contentFor p.2) := by simpa using h
              refine Or.inr ⟨p, hseen, ?_, not_lt.mp hscore, ?_⟩
              · rw [firstOcc, List.find?_cons_of_pos]
                simp
              · subst hsval
                simp [builtFrom, SearchResult.into_source, Source.new,
                  Source.with_relevance_score]
          · have hne : p'.1.url ≠ p.1.url := fun h => hnot (h ▸ List.mem_cons_self _ _)
            refine Or.inr ⟨p', fun hmem => hnot (List.mem_cons_of_mem _ hmem), ?_, hmin, hb⟩
            rw [firstOcc, List.find?_cons_of_neg]
            · exact hfind
            · simp only [beq_iff_eq]
              exact fun hurl => hne hurl.symm

theorem gather_presence (cfg : ExecutorConfig) :
    ∀ (pairs : List (SearchResult × String)) (seen : List String) (acc : List Source)
      (next : Nat) (p : SearchResult × String),
      firstOcc pairs p.1.url = some p → p.1.url ∉ seen → cfg.min_score ≤ p.1.score →
      ∃ s ∈ (gather cfg pairs (seen, acc, next)).2.1, builtFrom s p := by
  intro pairs
  induction pairs with
  | nil => intro seen acc next p hfind; simp [firstOcc] at hfind
  | cons q rest ih =>
      intro seen acc next p hfind hseen hmin
      by_cases hq : q.1.url = p.1.url
      · have hp : p = q := by
          rw [firstOcc, List.find?_cons_of_pos _ (by simp [hq])] at hfind
          exact (Option.some.injEq _ _ ▸ hfind).symm
        subst hp
        have hscore : ¬ p.1.score < cfg.min_score := not_lt.mpr hmin
        have hstep : gather cfg (p :: rest) (seen, acc, next) =
            gather cfg rest
              (p.1.url :: seen, acc ++ [p.1.into_source next (contentFor p.2)], next + 1) := by
          simp [gather, stepResult, hseen, hscore]
        refine ⟨p.1.into_source next (contentFor p.2), ?_, ?_⟩
        · rw [hstep]
          exact gather_acc_mono cfg rest _ (by simp)
        · simp [builtFrom, SearchResult.into_source, Source.new, Source.with_relevance_score]
      · rw [firstOcc, List.find?_cons_of_neg _ (by simp [hq])] at hfind
        by_cases hseenq : q.1.url ∈ seen
        · have hstep : gather cfg (q :: rest) (seen, acc, next) =
              gather cfg rest (seen, acc, next) := by
            simp [gather, stepResult, hseenq]
          rw [hstep]
          exact ih seen acc next p hfind hseen hmin
        · have hnot' : p.1.url ∉ q.1.url :: seen := by
            intro hmem
            rcases List.mem_cons.mp hmem with h | h
            · exact hq h.symm
            · exact hseen h
          by_cases hscoreq : q.1.score < cfg.min_score
          · have hstep : gather cfg (q :: rest) (seen, acc, next) =
                gather cfg rest (q.1.url :: seen, acc, next) := by
              simp [gather, stepResult, hseenq, hscoreq]
            rw [hstep]
            exact ih _ acc next p hfind hnot' hmin
          · have hstep : gather cfg (q :: rest) (seen, acc, next) =
                gather cfg rest
                  (q.1.url :: seen, acc ++ [q.1.into_source next (contentFor q.2)], next + 1) := by
              simp [gather, stepResult, hseenq, hscoreq]
            rw [hstep]
            exact ih _ _ _ p hfind hnot' hmin

theorem gather_invariant (cfg : ExecutorConfig) :
    ∀ (pairs : List (SearchResult × String)) (seen : List String) (acc : List Source)
      (next : Nat),
      (∀ s ∈ acc, s.url ∈ seen) → (acc.map Source.url).Nodup →
      (∀ s ∈ (gather cfg pairs (seen, acc, next)).2.1,
          s.url ∈ (gather cfg pairs (seen, acc, next)).1) ∧
        ((gather cfg pairs (seen, acc, next)).2.1.map Source.url).Nodup := by
  intro pairs
  induction pairs with
  | nil =>
      intro seen acc next hmem hnd
      exact ⟨by simpa [gather] using hmem, by simpa [gather] using hnd⟩
  | cons p rest ih =>
      intro seen acc next hmem hnd
      by_cases hseen : p.1.url ∈ seen
      · have hstep : gather cfg (p :: rest) (seen, acc, next) =
            gather cfg rest (seen, acc, next) := by
          simp [gather, stepResult, hseen]
        rw [hstep]
        exact ih seen acc next hmem hnd
      · by_cases hscore : p.1.score < cfg.min_score
        · have hstep : gather cfg (p :: rest) (seen, acc, next) =
              gather cfg rest (p.1.url :: seen, acc, next) := by
            simp [gather, stepResult, hseen, hscore]
          rw [hstep]
          exact ih _ acc next (fun s hs => List.mem_cons_of_mem _ (hmem s hs)) hnd
        · have hstep : gather cfg (p :: rest) (seen, acc, next) =
              gather cfg rest
                (p.1.url :: seen, acc ++ [p.1.into_source next (contentFor p.2)], next + 1) := by
            simp [gather, stepResult, hseen, hscore]
          rw [hstep]
          refine ih _ _ _ ?_ ?_
          · intro s hs
            rcases List.mem_append.mp hs with h | h
            · exact List.mem_cons_of_mem _ (hmem s h)
            · have : s = p.1.into_source next (contentFor p.2) := by simpa using h
              subst this
              simp [SearchResult.into_source, Source.new, Source.with_relevance_score]
          · rw [List.map_append, List.nodup_append]
            refine ⟨hnd, by simp, ?_⟩
            intro u hu hu'
            have hu2 : u = p.1.url := by
              simpa [SearchResult.into_source, Source.new, Source.with_relevance_score]
                using hu'
            subst hu2
            rcases List.mem_map.mp hu with ⟨s, hsmem, hsurl⟩
            exact hseen (hsurl ▸ hmem s hsmem)

theorem execute_eq_of_planResults (cfg : ExecutorConfig) (provider : SearchCapability)
    (plan : SearchPlan) (pairs : List (SearchResult × String))
    (hpairs : planResults provider plan.queries = .ok pairs) :
    Executor.execute cfg provider plan =
      .ok (((gatherAll cfg pairs).insertionSort scoreDesc).take cfg.max_sources) := by
  unfold Executor.execute
  rw [executeLoop_eq_planResults, hpairs]
  rfl

theorem mem_execute_of_ok (cfg : ExecutorConfig) (provider : SearchCapability)
    (plan : SearchPlan) (out : List Source) (pairs : List (SearchResult × String))
    (hrun : Executor.execute cfg provider plan = .ok out)
    (hpairs : planResults provider plan.queries = .ok pairs) :
    ∀ s ∈ out, s ∈ gatherAll cfg pairs := by
  have h := execute_eq_of_planResults cfg provider plan pairs hpairs
  rw [hrun] at h
  have hout : out = ((gatherAll cfg pairs).insertionSort scoreDesc).take cfg.max_sources := by
    simpa using h
  intro s hs
  rw [hout] at hs
  exact (List.perm_insertionSort scoreDesc (gatherAll cfg pairs)).subset
    (List.take_subset _ _ hs)

/-! ## C5, C6, C10 -/

/-- C5: across all queries of a plan, the executor output contains at most
one `Source` per URL (the output's URL list has no duplicates), and every
output `Source` is the one built from the first-seen result carrying its
URL in the accumulated stream — later duplicates are dropped even when
their scores or titles differ. -/
theorem executor_dedup_first_seen_wins (cfg : ExecutorConfig) (provider : SearchCapability)
    (plan : SearchPlan) (out : List Source) (pairs : List (SearchResult × String))
    (hrun : Executor.execute cfg provider plan = .ok out)
    (hpairs : planResults provider plan.queries = .ok pairs) :
    (out.map Source.url).Nodup ∧
      ∀ s ∈ out, ∃ p, firstOcc pairs s.url = some p ∧ builtFrom s p := by
  have h := execute_eq_of_planResults cfg provider plan pairs hpairs
  rw [hrun] at h
  have hout : out = ((gatherAll cfg pairs).insertionSort scoreDesc).take cfg.max_sources := by
    simpa using h
  constructor
  · have hnd : ((gatherAll cfg pairs).map Source.url).Nodup :=
      (gather_invariant cfg pairs [] [] 0 (by simp) (by simp)).2
    have hperm := (List.perm_insertionSort scoreDesc (gatherAll cfg pairs)).map Source.url
    have hnd' : (((gatherAll cfg pairs).insertionSort scoreDesc).map Source.url).Nodup :=
      hperm.nodup_iff.mpr hnd
    rw [hout, List.map_take]
    exact List.Nodup.sublist (List.take_sublist _ _) hnd'
  · intro s hs
    have hmem := mem_execute_of_ok cfg provider plan out pairs hrun hpairs s hs
    rcases gather_mem cfg pairs [] [] 0 s hmem with h | ⟨p, _, hfind, _, hb⟩
    · simp at h
    · exact ⟨p, hb.1 ▸ hfind, hb⟩

/-- C6: every `Source` in the executor output originates from a stream
result whose score is at or above the configured minimum, and — setting
deduplication and truncation aside — every first-seen result at or above
the minimum yields a `Source` in the accumulated (pre-truncation) list. -/
theorem executor_min_score_filter (cfg : ExecutorConfig) (provider : SearchCapability)
    (plan : SearchPlan) (out : List Source) (pairs : List (SearchResult × String))
    (hrun : Executor.execute cfg provider plan = .ok out)
    (hpairs : planResults provider plan.queries = .ok pairs) :
    (∀ s ∈ out, ∃ p ∈ pairs, cfg.min_score ≤ p.1.score ∧ builtFrom s p) ∧
      ∀ p ∈ pairs, firstOcc pairs p.1.url = some p → cfg.min_score ≤ p.1.score →
        ∃ s ∈ gatherAll cfg pairs, builtFrom s p := by
  constructor
  · intro s hs
    have hmem := mem_execute_of_ok cfg provider plan out pairs hrun hpairs s hs
    rcases gather_mem cfg pairs [] [] 0 s hmem with h | ⟨p, _, hfind, hmin, hb⟩
    · simp at h
    · exact ⟨p, List.mem_of_find?_eq_some hfind, hmin, hb⟩
  · intro p _ hfind hmin
    exact gather_presence cfg pairs [] [] 0 p hfind (by simp) hmin

/-- C10: when the first-seen result for a URL scores below the configured
minimum, the executor still records the URL as seen, so no `Source` with
that URL ever reaches the output — every later result with the same URL is
dropped regardless of its score. -/
theorem executor_below_min_first_occurrence_blocks_url (cfg : ExecutorConfig)
    (provider : SearchCapability) (plan : SearchPlan) (out : List Source)
    (pairs : List (SearchResult × String)) (p : SearchResult × String)
    (hrun : Executor.execute cfg provider plan = .ok out)
    (hpairs : planResults provider plan.queries = .ok pairs)
    (hfirst : firstOcc pairs p.1.url = some p)
    (hbelow : p.1.score < cfg.min_score) :
    ∀ s ∈ out, s.url ≠ p.1.url := by
  intro s hs hurl
  have hmem := mem_execute_of_ok cfg provider plan out pairs hrun hpairs s hs
  rcases gather_mem cfg pairs [] [] 0 s hmem with h | ⟨p', _, hfind, hmin, hb⟩
  · simp at h
  · have heq : p'.1.url = p.1.url := hb.1 ▸ hurl
    have h1 : firstOcc pairs p.1.url = some p' := heq ▸ hfind
    have h2 : p' = p := Option.some_injective _ (h1.symm.trans hfirst)
    subst h2
    exact absurd hmin (not_le.mpr hbelow)

/-! ## Executor witnesses: one query returning a below-minimum first
occurrence of URL `a`, an above-minimum duplicate of `a`, and two results
for URL `b` of which only the first survives. -/

def wCfg : ExecutorConfig := { max_sources := 10, min_score := mkRat 1 2 }

def wLowA : SearchResult × String :=
  ({ url := "https://a", title := "A low", snippet := "s", score := mkRat 3 10 }, "test")

def wResults : List SearchResult :=
  [wLowA.1,
    { url := "https://a", title := "A high", snippet := "s", score := mkRat 9 10 },
    { url := "https://b", title := "B", snippet := "s", score := mkRat 7 10 },
    { url := "https://b", title := "B dup", snippet := "s", score := mkRat 4 5 }]

def wProvider : SearchCapability := fun _ => .ok wResults

def wPlan : SearchPlan := SearchPlan.new [SearchQuery.new "test"] ["mock"]

def wPairs : List (SearchResult × String) := wResults.map (fun r => (r, "test"))

def wOut : List Source :=
  [{ id := 0, url := "https://b", title := "B",
      content := "Content fetched from source. Query: test", relevance_score := mkRat 7 10 }]

/-- Witness for C5 at the concrete executor run above. -/
theorem executor_dedup_first_seen_wins_witness :
    (wOut.map Source.url).Nodup ∧
      ∀ s ∈ wOut, ∃ p, firstOcc wPairs s.url = some p ∧ builtFrom s p :=
  executor_dedup_first_seen_wins wCfg wProvider wPlan wOut wPairs (by decide) (by decide)

/-- Witness for C6 at the concrete executor run above. -/
theorem executor_min_score_filter_witness :
    (∀ s ∈ wOut, ∃ p ∈ wPairs, wCfg.min_score ≤ p.1.score ∧ builtFrom s p) ∧
      ∀ p ∈ wPairs, firstOcc wPairs p.1.url = some p → wCfg.min_score ≤ p.1.score →
        ∃ s ∈ gatherAll wCfg wPairs, builtFrom s p :=
  executor_min_score_filter wCfg wProvider wPlan wOut wPairs (by decide) (by decide)

/-- Witness for C10 at the concrete executor run above: URL `a` first
occurs below the minimum score, so even its later 0.9-scored duplicate is
absent, and the sole output source (URL `b`) does not carry URL `a`. -/
theorem executor_below_min_first_occurrence_blocks_url_witness :
    ({ id := 0, url := "https://b", title := "B",
        content := "Content fetched from source. Query: test",
        relevance_score := mkRat 7 10 } : Source).url ≠ wLowA.1.url :=
  executor_below_min_first_occurrence_blocks_url wCfg wProvider wPlan wOut wPairs wLowA
    (by decide) (by decide) (by decide) (by decide) _ (by decide)

/-! ## Answers (crates/gorkd-core/src/answer.rs) -/

/-- `Confidence` from `answer.rs`. -/
inductive Confidence where
  | high
  | medium
  | low
  | insufficient
deriving DecidableEq, Repr

/-- `Citation` from `answer.rs` (source ids embedded as `Nat`, see the
header note on opaque identifiers). -/
structure Citation where
  claim : String
  source_id : Nat
  quote : Option String
deriving DecidableEq, Repr

/-- `Citation::new` from `answer.rs`. -/
def Citation.new (claim : String) (source_id : Nat) : Citation :=
  { claim := claim, source_id := source_id, quote := none }

/-- `Citation::with_quote` from `answer.rs`. -/
def Citation.with_quote (c : Citation) (quote : String) : Citation :=
  { c with quote := some quote }

/-- `SynthesisMetadata` from `answer.rs` (duration kept in milliseconds). -/
structure SynthesisMetadata where
  model : String
  tokens_used : Nat
  synthesis_duration_millis : Nat
deriving DecidableEq, Repr

/-- `SynthesisMetadata::new` from `answer.rs`. -/
def SynthesisMetadata.new (model : String) : SynthesisMetadata :=
  { model := model, tokens_used := 0, synthesis_duration_millis := 0 }

/-- `SynthesisMetadata::with_tokens_used` from `answer.rs`. -/
def SynthesisMetadata.with_tokens_used (m : SynthesisMetadata) (tokens : Nat) :
    SynthesisMetadata :=
  { m with tokens_used := tokens }

/-- `SynthesisMetadata::with_duration` from `answer.rs`. -/
def SynthesisMetadata.with_duration (m : SynthesisMetadata) (millis : Nat) :
    SynthesisMetadata :=
  { m with synthesis_duration_millis := millis }

/-- `ResearchAnswer` from `answer.rs`. -/
structure ResearchAnswer where
  summary : String
  detail : String
  citations : List Citation
  confidence : Confidence
  limitations : List String
  synthesis_metadata : SynthesisMetadata
deriving DecidableEq, Repr

/-- `ResearchAnswer::new` from `answer.rs`. -/
def ResearchAnswer.new (summary detail : String) (confidence : Confidence)
    (model : String) : ResearchAnswer :=
  { summary := summary, detail := detail, citations := [], confidence := confidence,
    limitations := [], synthesis_metadata := SynthesisMetadata.new model }

/-- `ResearchAnswer::with_citations` from `answer.rs`. -/
def ResearchAnswer.with_citations (a : ResearchAnswer) (citations : List Citation) :
    ResearchAnswer :=
  { a with citations := citations }

/-- `ResearchAnswer::with_limitations` from `answer.rs`. -/
def ResearchAnswer.with_limitations (a : ResearchAnswer) (limitations : List String) :
    ResearchAnswer :=
  { a with limitations := limitations }

/-- `ResearchAnswer::with_metadata` from `answer.rs`. -/
def ResearchAnswer.with_metadata (a : ResearchAnswer) (metadata : SynthesisMetadata) :
    ResearchAnswer :=
  { a with synthesis_metadata := metadata }

/-- `ResearchAnswer::is_answerable` from `answer.rs`. -/
def ResearchAnswer.is_answerable (a : ResearchAnswer) : Bool :=
  match a.confidence with
  | .insufficient => false
  | _ => true

/-! ## Mock LLM provider (crates/gorkd-core/src/mock/llm.rs) -/

/-- `MockLlmProvider` from `mock/llm.rs`: the atomic call counter is an
explicit `Nat` field threaded through `synthesize`. -/
structure MockLlmProvider where
  model_id : String
  call_count : Nat
  fail_after : Option Nat
  confidence : Confidence
deriving DecidableEq, Repr

/-- `MockLlmProvider::new` from `mock/llm.rs`. -/
def MockLlmProvider.new (model_id : String) : MockLlmProvider :=
  { model_id := model_id, call_count := 0, fail_after := none, confidence := .high }

/-- `MockLlmProvider::generate_answer` from `mock/llm.rs`. -/
def MockLlmProvider.generate_answer (m : MockLlmProvider) (query : String)
    (sources : List Source) : ResearchAnswer :=
  let summary :=
    "Based on " ++ toString sources.length ++ " sources, here is the answer to: " ++ query
  let detail :=
    "After analyzing the provided sources, the answer to \"" ++ query ++
      "\" is as follows:\n\nThe sources indicate that this topic has been well-documented. " ++
      "Multiple reliable sources confirm the key findings.\n\nSources analyzed: " ++
      toString sources.length
  let citations :=
    (sources.take 3).map (fun s => Citation.new ("Information from " ++ s.title) s.id)
  let metadata :=
    ((SynthesisMetadata.new m.model_id).with_tokens_used 500).with_duration 250
  ((ResearchAnswer.new summary detail m.confidence m.model_id).with_citations
      citations).with_metadata metadata

/-- `MockLlmProvider::synthesize` from `mock/llm.rs`: the call counter is
incremented first; a configured `fail_after` then yields `RateLimited`; an
empty source list yields the fixed `Insufficient` answer; otherwise the
generated answer is returned. -/
def MockLlmProvider.synthesize (query : String) (sources : List Source)
    (m : MockLlmProvider) : Except LlmError ResearchAnswer × MockLlmProvider :=
  let count := m.call_count
  let m' := { m with call_count := count + 1 }
  if (match m.fail_after with | some fa => decide (fa ≤ count) | none => false) then
    (.error .rateLimited, m')
  else if sources.isEmpty then
    (.ok (ResearchAnswer.new "Unable to provide an answer without sources."
        "No sources were provided for analysis." .insufficient m.model_id), m')
  else
    (.ok (m.generate_answer query sources), m')

/-! ## Answer synthesizer (crates/gorkd-core/src/pipeline/synthesizer.rs) -/

/-- `SynthesizerConfig` from `synthesizer.rs`. -/
structure SynthesizerConfig where
  max_context_sources : Nat
deriving DecidableEq, Repr

/-- `SynthesizerConfig::default` from `synthesizer.rs`. -/
def SynthesizerConfig.mkDefault : SynthesizerConfig := { max_context_sources := 5 }

/-- `Synthesizer::synthesize` from `synthesizer.rs`: truncate the source
list to the configured maximum context size, then invoke the LLM capability
once. The capability is a function threading its own state `σ` (used for
call counting by the mock provider; `σ := Unit` for a stateless one). -/
def Synthesizer.synthesize {σ : Type} (cfg : SynthesizerConfig)
    (provider : String → List Source → σ → Except LlmError ResearchAnswer × σ)
    (query : String) (sources : List Source) (st : σ) :
    Except LlmError ResearchAnswer × σ :=
  provider query (sources.take cfg.max_context_sources) st

/-! ## C2 -/

/-- Counterexample for C2: running the synthesizer over the mock LLM
provider with an empty source list does return an `Insufficient` answer
with no citations, but the LLM capability is invoked exactly once — not
zero times as the claim states: the short-circuit happens inside the
provider, after the call counter has already been incremented. -/
theorem synthesizer_empty_sources_invokes_provider :
    ((Synthesizer.synthesize SynthesizerConfig.mkDefault MockLlmProvider.synthesize
        "test" [] (MockLlmProvider.new "mock-gpt-4")).2.call_count = 1) ∧
      ¬ ((Synthesizer.synthesize SynthesizerConfig.mkDefault MockLlmProvider.synthesize
          "test" [] (MockLlmProvider.new "mock-gpt-4")).2.call_count = 0) ∧
      (Synthesizer.synthesize SynthesizerConfig.mkDefault MockLlmProvider.synthesize
          "test" [] (MockLlmProvider.new "mock-gpt-4")).1 =
        .ok (ResearchAnswer.new "Unable to provide an answer without sources."
          "No sources were provided for analysis." .insufficient "mock-gpt-4") := by
  decide

/-- C2 as amended: for every query and every mock provider without fault
injection, synthesizing an empty source list returns an answer with
confidence `Insufficient`, no citations and `is_answerable() = false`, and
the LLM capability is invoked exactly once (its call counter increments by
one); the short-circuit lives in the provider, not in the synthesizer. -/
theorem synthesizer_empty_sources_insufficient_one_call (cfg : SynthesizerConfig)
    (query : String) (m : MockLlmProvider) (hfa : m.fail_after = none) :
    ∃ a, Synthesizer.synthesize cfg MockLlmProvider.synthesize query [] m =
        (.ok a, { m with call_count := m.call_count + 1 }) ∧
      a.confidence = .insufficient ∧ a.citations = [] ∧ a.is_answerable = false := by
  refine ⟨ResearchAnswer.new "Unable to provide an answer without sources."
      "No sources were provided for analysis." .insufficient m.model_id, ?_, rfl, rfl, rfl⟩
  simp [Synthesizer.synthesize, MockLlmProvider.synthesize, hfa]

/-- Witness for the amended C2 at a concrete provider. -/
theorem synthesizer_empty_sources_insufficient_one_call_witness :
    ∃ a, Synthesizer.synthesize SynthesizerConfig.mkDefault MockLlmProvider.synthesize
        "What is Rust?" [] (MockLlmProvider.new "mock-gpt-4") =
        (.ok a, { MockLlmProvider.new "mock-gpt-4" with
                    call_count := (MockLlmProvider.new "mock-gpt-4").call_count + 1 }) ∧
      a.confidence = .insufficient ∧ a.citations = [] ∧ a.is_answerable = false :=
  synthesizer_empty_sources_insufficient_one_call SynthesizerConfig.mkDefault
    "What is Rust?" (MockLlmProvider.new "mock-gpt-4") rfl

/-! ## LLM registry (crates/gorkd-llm/src/registry.rs) -/

/-- A registered LLM provider handle: its `model_id()` and the outcome of
invoking `synthesize` on the given arguments. -/
structure LlmProviderHandle where
  model_id : String
  behavior : String → List Source → Except LlmError ResearchAnswer

/-- `LlmRegistry` from `registry.rs`: the `HashMap` of providers is
embedded as an association list (`get` returns the first binding, and
`register` removes any previous binding for the key, matching
`HashMap::insert`). -/
structure LlmRegistry where
  providers : List (String × LlmProviderHandle)
  default_model : Option String
  fallback_model : Option String

/-- `LlmRegistry::new` from `registry.rs`. -/
def LlmRegistry.new : LlmRegistry :=
  { providers := [], default_model := none, fallback_model := none }

/-- `LlmRegistry::get` from `registry.rs`. -/
def LlmRegistry.get (r : LlmRegistry) (model_id : String) : Option LlmProviderHandle :=
  (r.providers.find? (fun kv => kv.1 == model_id)).map (·.2)

/-- `LlmRegistry::register` from `registry.rs`: the first registration
implicitly becomes the default. -/
def LlmRegistry.register (r : LlmRegistry) (model_id : String)
    (provider : LlmProviderHandle) : LlmRegistry :=
  { r with
    default_model := (match r.default_model with | none => some model_id | some d => some d),
    providers := (model_id, provider) :: r.providers.filter (fun kv => kv.1 != model_id) }

/-- `LlmRegistry::set_default` from `registry.rs`. -/
def LlmRegistry.set_default (r : LlmRegistry) (model_id : String) : LlmRegistry :=
  { r with default_model := some model_id }

/-- `LlmRegistry::set_fallback` from `registry.rs`. -/
def LlmRegistry.set_fallback (r : LlmRegistry) (model_id : String) : LlmRegistry :=
  { r with fallback_model := some model_id }

/-- `LlmRegistry::default` from `registry.rs`. -/
def LlmRegistry.defaultProvider (r : LlmRegistry) : Option LlmProviderHandle :=
  r.default_model.bind r.get

/-- `LlmRegistry::fallback` from `registry.rs`. -/
def LlmRegistry.fallbackProvider (r : LlmRegistry) : Option LlmProviderHandle :=
  r.fallback_model.bind r.get

/-- The primary-resolution step of `synthesize_with_fallback`: an explicit
model id is looked up directly, otherwise the default is used. -/
def LlmRegistry.resolvePrimary (r : LlmRegistry) (model_id : Option String) :
    Option LlmProviderHandle :=
  match model_id with
  | some id => r.get id
  | none => r.defaultProvider

/-- `LlmRegistry::synthesize_with_fallback` from `registry.rs`, instrumented
to also return the trace of `model_id()`s of the providers it invoked, in
order. On a retryable primary error with a configured fallback whose model
id differs from the primary's, the fallback is invoked once and its outcome
returned; otherwise the primary's original error is propagated. -/
def LlmRegistry.synthesize_with_fallback (r : LlmRegistry) (query : String)
    (sources : List Source) (model_id : Option String) :
    Except LlmError ResearchAnswer × List String :=
  match r.resolvePrimary model_id with
  | none =>
      (.error (.modelUnavailable (model_id.getD "no default model configured")), [])
  | some primary =>
      let pid := primary.model_id
      match primary.behavior query sources with
      | .ok answer => (.ok answer, [pid])
      | .error e =>
          if e.is_retryable then
            match r.fallbackProvider with
            | some fb =>
                if fb.model_id ≠ pid then (fb.behavior query sources, [pid, fb.model_id])
                else (.error e, [pid])
            | none => (.error e, [pid])
          else (.error e, [pid])

/-! ## C4 -/

/-- C4: when the resolved primary provider fails, `synthesize_with_fallback`
(i) on a retryable error with a configured fallback whose model id differs
from the primary's, invokes the fallback exactly once and returns its
outcome unchanged, each provider having been invoked exactly once (the
invocation trace is exactly primary then fallback); (ii) on a non-retryable
error, never invokes the fallback and returns the original error; (iii)
when no fallback with a distinct model id is configured, never invokes a
second provider and returns the original error. -/
theorem llm_registry_fallback_once (r : LlmRegistry) (query : String)
    (sources : List Source) (model_id : Option String) (primary : LlmProviderHandle)
    (e : LlmError) (hres : r.resolvePrimary model_id = some primary)
    (herr : primary.behavior query sources = .error e) :
    (∀ fb, e.is_retryable = true → r.fallbackProvider = some fb →
        fb.model_id ≠ primary.model_id →
        r.synthesize_with_fallback query sources model_id =
          (fb.behavior query sources, [primary.model_id, fb.model_id])) ∧
      (e.is_retryable = false →
        r.synthesize_with_fallback query sources model_id =
          (.error e, [primary.model_id])) ∧
      ((∀ fb, r.fallbackProvider = some fb → fb.model_id = primary.model_id) →
        r.synthesize_with_fallback query sources model_id =
          (.error e, [primary.model_id])) := by
  refine ⟨?_, ?_, ?_⟩
  · intro fb hretry hfb hne
    simp [LlmRegistry.synthesize_with_fallback, hres, herr, hretry, hfb, hne]
  · intro hretry
    simp [LlmRegistry.synthesize_with_fallback, hres, herr, hretry]
  · intro hsame
    by_cases hretry : e.is_retryable
    · cases hfb : r.fallbackProvider with
      | none => simp [LlmRegistry.synthesize_with_fallback, hres, herr, hretry, hfb]
      | some fb =>
          simp [LlmRegistry.synthesize_with_fallback, hres, herr, hretry, hfb, hsame fb hfb]
    · simp [LlmRegistry.synthesize_with_fallback, hres, herr,
        Bool.not_eq_true e.is_retryable ▸ hretry]

/-! C4 witness setup: a primary that fails with a retryable error and a
distinct, working fallback. -/

def c4Answer : ResearchAnswer := ResearchAnswer.new "summary" "detail" .high "fallback"

def c4Primary : LlmProviderHandle :=
  { model_id := "primary", behavior := fun _ _ => .error .rateLimited }

def c4Fallback : LlmProviderHandle :=
  { model_id := "fallback", behavior := fun _ _ => .ok c4Answer }

def c4Registry : LlmRegistry :=
  { providers := [("primary", c4Primary), ("fallback", c4Fallback)],
    default_model := some "primary", fallback_model := some "fallback" }

/-- Witness for C4: the retryable primary failure hands over to the
distinct fallback, whose successful answer is returned with the trace
showing exactly one invocation of each provider. -/
theorem llm_registry_fallback_once_witness :
    c4Registry.synthesize_with_fallback "q" [] none =
      (c4Fallback.behavior "q" [], [c4Primary.model_id, c4Fallback.model_id]) :=
  (llm_registry_fallback_once c4Registry "q" [] none c4Primary .rateLimited rfl rfl).1
    c4Fallback rfl rfl (by decide)

/-! ## Fallback search provider (crates/gorkd-search/src/fallback.rs) -/

/-- A registered search provider: its `provider_id()` and the outcome of
invoking `search` on the given query. -/
structure SearchProviderHandle where
  id : String
  behavior : SearchQuery → Except SearchError (List SearchResult)

/-- The `for provider in &self.providers` loop of
`FallbackSearchProvider::search`, instrumented to also return the trace of
provider ids it invoked, in order. `lastErr` carries the most recent
retryable error; on exhaustion it is returned (or `ProviderUnavailable
"all"` if no provider was ever tried, which is unreachable for a non-empty
list). -/
def FallbackSearchProvider.searchLoop (query : SearchQuery) :
    List SearchProviderHandle → Option SearchError → List String →
      Except SearchError (List SearchResult) × List String
  | [], lastErr, trace => (.error (lastErr.getD (.providerUnavailable "all")), trace)
  | p :: rest, lastErr, trace =>
    match p.behavior query with
    | .ok results => (.ok results, trace ++ [p.id])
    | .error e =>
        if e.is_retryable then
          FallbackSearchProvider.searchLoop query rest (some e) (trace ++ [p.id])
        else (.error e, trace ++ [p.id])

/-- `FallbackSearchProvider::search` from `fallback.rs`: an empty provider
list yields `ProviderUnavailable "none"`; otherwise the providers are
walked in order. -/
def FallbackSearchProvider.search (providers : List SearchProviderHandle)
    (query : SearchQuery) : Except SearchError (List SearchResult) × List String :=
  if providers.isEmpty then (.error (.providerUnavailable "none"), [])
  else FallbackSearchProvider.searchLoop query providers none []

theorem searchLoop_prefix_retryable (query : SearchQuery)
    (errf : SearchProviderHandle → SearchError) :
    ∀ (pre : List SearchProviderHandle) (lastErr : Option SearchError)
      (trace : List String) (rest : List SearchProviderHandle),
      (∀ q ∈ pre, q.behavior query = .error (errf q) ∧ (errf q).is_retryable = true) →
      FallbackSearchProvider.searchLoop query (pre ++ rest) lastErr trace =
        FallbackSearchProvider.searchLoop query rest
          (pre.getLast?.elim lastErr (fun q => some (errf q)))
          (trace ++ pre.map (·.id)) := by
  intro pre
  induction pre with
  | nil => intro lastErr trace rest _; simp
  | cons q pre' ih =>
      intro lastErr trace rest h
      have hq := h q (List.mem_cons_self _ _)
      have hstep : FallbackSearchProvider.searchLoop query ((q :: pre') ++ rest) lastErr trace =
          FallbackSearchProvider.searchLoop query (pre' ++ rest) (some (errf q))
            (trace ++ [q.id]) := by
        simp [FallbackSearchProvider.searchLoop, hq.1, hq.2]
      rw [hstep, ih (some (errf q)) (trace ++ [q.id]) rest
        (fun q' hq' => h q' (List.mem_cons_of_mem _ hq'))]
      cases pre' with
      | nil => simp
      | cons q2 pre'' =>
          have hl : (q2 :: pre'').getLast? = some ((q2 :: pre'').getLast (by simp)) :=
            List.getLast?_eq_getLast _ (by simp)
          simp [hl]

/-! ## C7 -/

/-- C7: `FallbackSearchProvider::search` walks the provider list in order
until one provider succeeds or the list is exhausted. (i) When every
provider fails with a retryable error, every provider is invoked once, in
order, and the last encountered error is returned. (ii) On the first
non-retryable failure it stops and returns that error, never invoking any
later provider. (iii) On the first success it returns those results,
never invoking any later provider. `errf` assigns to each failing provider
the error it returns. -/
theorem fallback_search_walks_in_order (query : SearchQuery)
    (errf : SearchProviderHandle → SearchError) :
    (∀ (providers : List SearchProviderHandle) (plast : SearchProviderHandle),
        providers.getLast? = some plast →
        (∀ p ∈ providers, p.behavior query = .error (errf p) ∧
          (errf p).is_retryable = true) →
        FallbackSearchProvider.search providers query =
          (.error (errf plast), providers.map (·.id))) ∧
      (∀ (pre : List SearchProviderHandle) (p : SearchProviderHandle)
          (post : List SearchProviderHandle) (e : SearchError),
        (∀ q ∈ pre, q.behavior query = .error (errf q) ∧ (errf q).is_retryable = true) →
        p.behavior query = .error e → e.is_retryable = false →
        FallbackSearchProvider.search (pre ++ p :: post) query =
          (.error e, (pre ++ [p]).map (·.id))) ∧
      (∀ (pre : List SearchProviderHandle) (p : SearchProviderHandle)
          (post : List SearchProviderHandle) (results : List SearchResult),
        (∀ q ∈ pre, q.behavior query = .error (errf q) ∧ (errf q).is_retryable = true) →
        p.behavior query = .ok results →
        FallbackSearchProvider.search (pre ++ p :: post) query =
          (.ok results, (pre ++ [p]).map (·.id))) := by
  refine ⟨?_, ?_, ?_⟩
  · intro providers plast hlast h
    have hne : providers ≠ [] := by
      intro hcontra; rw [hcontra] at hlast; simp at hlast
    have hempty : providers.isEmpty = false := by
      cases providers with
      | nil => exact absurd rfl hne
      | cons a l => rfl
    unfold FallbackSearchProvider.search
    rw [hempty]
    simp only [Bool.false_eq_true, if_false]
    have := searchLoop_prefix_retryable query errf providers none [] [] h
    rw [List.append_nil] at this
    rw [this, hlast]
    simp [FallbackSearchProvider.searchLoop]
  · intro pre p post e hpre hp hnr
    have hempty : (pre ++ p :: post).isEmpty = false := by
      cases pre with
      | nil => rfl
      | cons a l => rfl
    unfold FallbackSearchProvider.search
    rw [hempty]
    simp only [Bool.false_eq_true, if_false]
    rw [searchLoop_prefix_retryable query errf pre none [] (p :: post) hpre]
    simp [FallbackSearchProvider.searchLoop, hp, hnr]
  · intro pre p post results hpre hp
    have hempty : (pre ++ p :: post).isEmpty = false := by
      cases pre with
      | nil => rfl
      | cons a l => rfl
    unfold FallbackSearchProvider.search
    rw [hempty]
    simp only [Bool.false_eq_true, if_false]
    rw [searchLoop_prefix_retryable query errf pre none [] (p :: post) hpre]
    simp [FallbackSearchProvider.searchLoop, hp]

/-! C7 witness setup: a provider that rate-limits, then one that succeeds,
then one that is never reached. -/

def c7Results : List SearchResult := [SearchResult.new "https://example.com" "Test" "Content"]

def c7First : SearchProviderHandle :=
  { id := "first", behavior := fun _ => .error (.rateLimited "first") }

def c7Second : SearchProviderHandle :=
  { id := "second", behavior := fun _ => .ok c7Results }

def c7Third : SearchProviderHandle :=
  { id := "third", behavior := fun _ => .error (.invalidQuery "unreached") }

/-- Witness for C7: after the first provider's retryable failure the second
succeeds and the third is never invoked. -/
theorem fallback_search_walks_in_order_witness :
    FallbackSearchProvider.search [c7First, c7Second, c7Third] (SearchQuery.new "t") =
      (.ok c7Results, ([c7First] ++ [c7Second]).map (·.id)) :=
  (fallback_search_walks_in_order (SearchQuery.new "t")
      (fun _ => SearchError.rateLimited "first")).2.2
    [c7First] c7Second [c7Third] c7Results
    (by intro q hq; simp only [List.mem_singleton] at hq; subst hq; exact ⟨rfl, rfl⟩) rfl

/-! ## Response parser (crates/gorkd-llm/src/anthropic/parser.rs)

Text is embedded as `List Char`. Rust's `str::find` returns byte offsets
and the embedding uses character offsets; the fence markers searched
for are ASCII, so the two coordinate systems agree on every operation
performed here. -/

/-- Rust `char::is_whitespace` (the embedding covers the ASCII whitespace
subset used by the verified inputs). -/
def isWs (c : Char) : Bool := c.isWhitespace

/-- Rust `str::trim`. -/
def trimChars (s : List Char) : List Char :=
  ((s.dropWhile isWs).reverse.dropWhile isWs).reverse

/-- Auxiliary scan for `strFind`. -/
def strFindAux (pat : List Char) : List Char → Nat → Option Nat
  | [], i => if pat.isPrefixOf [] then some i else none
  | c :: rest, i =>
      if pat.isPrefixOf (c :: rest) then some i else strFindAux pat rest (i + 1)

/-- Rust `str::find(pattern)`: index of the first occurrence. -/
def strFind (hay pat : List Char) : Option Nat := strFindAux pat hay 0

/-- Rust `str::find(char)`: index of the first occurrence of a character. -/
def charFind (hay : List Char) (c : Char) : Option Nat :=
  hay.findIdx? (fun x => x == c)

/-- Rust `str::rfind(char)`: index of the last occurrence of a character. -/
def charRfind (hay : List Char) (c : Char) : Option Nat :=
  (hay.reverse.findIdx? (fun x => x == c)).map (fun i => hay.length - 1 - i)

/-- `ParseError` from `parser.rs`. -/
inductive ParseError where
  | noJsonFound
  | invalidJson (msg : String)
deriving DecidableEq, Repr

/-- The '```json' fence marker (7 characters). -/
def fenceJson : List Char := "```json".data

/-- The '```' fence marker (3 characters). -/
def fenceBare : List Char := "```".data

/-- Strategy (a) of `extract_json`: the whole trimmed text if it starts
with a brace and ends with a brace. -/
def stratWhole (trimmed : List Char) : Option (List Char) :=
  if trimmed.head? = some '{' ∧ trimmed.getLast? = some '}' then some trimmed else none

/-- Strategy (b) of `extract_json`: the trimmed contents of a closed
'```json' fence. -/
def stratJsonFence (trimmed : List Char) : Option (List Char) :=
  match strFind trimmed fenceJson with
  | none => none
  | some start =>
      let after := trimmed.drop (start + 7)
      match strFind after fenceBare with
      | none => none
      | some stop => some (trimChars (after.take stop))

/-- Strategy (c) of `extract_json`: the trimmed contents of the first
closed '```' fence, if they start with a brace. -/
def stratAnyFence (trimmed : List Char) : Option (List Char) :=
  match strFind trimmed fenceBare with
  | none => none
  | some start =>
      let after := trimmed.drop (start + 3)
      match strFind after fenceBare with
      | none => none
      | some stop =>
          let inner := trimChars (after.take stop)
          if inner.head? = some '{' then some inner else none

/-- Strategy (d) of `extract_json`: the substring from the first opening
brace to the last closing brace, when the former strictly precedes the
latter. -/
def stratFirstLastBrace (trimmed : List Char) : Option (List Char) :=
  match charFind trimmed '{', charRfind trimmed '}' with
  | some start, some stop =>
      if start < stop then some ((trimmed.drop start).take (stop - start + 1)) else none
  | _, _ => none

/-- `extract_json` from `parser.rs`: the four strategies are tried in
order with early return; if none applies the result is `NoJsonFound`. -/
def extract_json (text : List Char) : Except ParseError (List Char) :=
  match stratWhole (trimChars text) with
  | some r => .ok r
  | none =>
  match stratJsonFence (trimChars text) with
  | some r => .ok r
  | none =>
  match stratAnyFence (trimChars text) with
  | some r => .ok r
  | none =>
  match stratFirstLastBrace (trimChars text) with
  | some r => .ok r
  | none => .error .noJsonFound

/-- `parse_synthesis_response` from `parser.rs`, with the `serde_json`
decoding of the extracted text into the expected `RawSynthesisResponse`
shape abstracted as the `decode` parameter (external library code);
decoding failure becomes the distinct `InvalidJson` error. The subsequent
citation resolution and confidence mapping are not needed by claim C3 and
are not modelled. -/
def parse_synthesis_response {α : Type} (decode : List Char → Except String α)
    (text : List Char) : Except ParseError α :=
  match extract_json text with
  | .error e => .error e
  | .ok json_text =>
      match decode json_text with
      | .error msg => .error (.invalidJson msg)
      | .ok raw => .ok raw

/-! A small JSON validity checker, used only to state the spec's notion of
"successfully-decodable JSON object". -/

/-- Skip leading whitespace. -/
def skipWs (s : List Char) : List Char := s.dropWhile isWs

/-- Scan the remainder of a JSON string literal (after the opening quote);
an escape accepts its following character. -/
def parseStringLit : List Char → Option (List Char)
  | [] => none
  | '\\' :: _ :: rest => parseStringLit rest
  | '"' :: rest => some rest
  | _ :: rest => parseStringLit rest

/-- Require at least one digit, returning the remainder after them. -/
def jsonDigits (s : List Char) : Option (List Char) :=
  if (s.takeWhile Char.isDigit).isEmpty then none else some (s.dropWhile Char.isDigit)

/-- Exponent part of a JSON number (after `e`/`E`). -/
def jsonExp (r : List Char) : Option (List Char) :=
  match r with
  | '+' :: r2 => jsonDigits r2
  | '-' :: r2 => jsonDigits r2
  | _ => jsonDigits r

/-- A JSON number (the checker is lenient about leading zeros). -/
def jsonNumber (s : List Char) : Option (List Char) :=
  match (match s with | '-' :: r => r | _ => s) with
  | s1 =>
    match jsonDigits s1 with
    | none => none
    | some s2 =>
        match (match s2 with | '.' :: r => jsonDigits r | _ => some s2) with
        | none => none
        | some s3 =>
            match s3 with
            | 'e' :: r => jsonExp r
            | 'E' :: r => jsonExp r
            | _ => some s3

mutual

/-- Accept one JSON value, returning the unconsumed remainder. -/
def jsonValue : Nat → List Char → Option (List Char)
  | 0, _ => none
  | fuel + 1, s =>
      match skipWs s with
      | '"' :: rest => parseStringLit rest
      | '{' :: rest =>
          (match skipWs rest with
            | '}' :: r2 => some r2
            | s2 => jsonMembers fuel s2)
      | '[' :: rest =>
          (match skipWs rest with
            | ']' :: r2 => some r2
            | s2 => jsonElements fuel s2)
      | 't' :: 'r' :: 'u' :: 'e' :: rest => some rest
      | 'f' :: 'a' :: 'l' :: 's' :: 'e' :: rest => some rest
      | 'n' :: 'u' :: 'l' :: 'l' :: rest => some rest
      | s1 => jsonNumber s1

/-- Accept one or more `"key": value` members followed by the closing
brace. -/
def jsonMembers : Nat → List Char → Option (List Char)
  | 0, _ => none
  | fuel + 1, s =>
      match s with
      | '"' :: rest =>
          (match parseStringLit rest with
            | none => none
            | some r1 =>
                match skipWs r1 with
                | ':' :: r2 =>
                    (match jsonValue fuel (skipWs r2) with
                      | none => none
                      | some r3 =>
                          match skipWs r3 with
                          | ',' :: r4 => jsonMembers fuel (skipWs r4)
                          | '}' :: r4 => some r4
                          | _ => none)
                | _ => none)
      | _ => none

/-- Accept one or more array elements followed by the closing bracket. -/
def jsonElements : Nat → List Char → Option (List Char)
  | 0, _ => none
  | fuel + 1, s =>
      match jsonValue fuel s with
      | none => none
      | some r =>
          match skipWs r with
          | ',' :: r2 => jsonElements fuel (skipWs r2)
          | ']' :: r2 => some r2
          | _ => none

end

/-- Modelled from the spec: the text is a successfully-decodable JSON
object (it parses as a single JSON value that opens with a brace, with
nothing but whitespace left over). -/
def isJsonObject (s : List Char) : Bool :=
  match skipWs s with
  | '{' :: _ =>
      (match jsonValue (2 * s.length + 4) s with
        | some rest => (skipWs rest).isEmpty
        | none => false)
  | _ => false

/-- Modelled from the spec (claim C3): among the strategies, in order
(a)-(d), the first that yields a successfully-decodable JSON object wins;
if none does, the result is the `NoJsonFound` error. -/
def extractJsonSpec (text : List Char) : Except ParseError (List Char) :=
  match ([stratWhole (trimChars text), stratJsonFence (trimChars text),
      stratAnyFence (trimChars text),
      stratFirstLastBrace (trimChars text)].filterMap id).find? isJsonObject with
  | some r => .ok r
  | none => .error .noJsonFound

/-- The amended extraction contract: the first strategy that textually
applies wins, regardless of whether its extracted text is decodable. -/
def extractJsonFirstApplicable (text : List Char) : Except ParseError (List Char) :=
  match [stratWhole (trimChars text), stratJsonFence (trimChars text),
      stratAnyFence (trimChars text),
      stratFirstLastBrace (trimChars text)].findSome? id with
  | some r => .ok r
  | none => .error .noJsonFound

/-! ## C3 -/

/-- The counterexample input: a closed '```json' fence holding the
non-JSON word `hello`, followed by a decodable JSON object. -/
def c3Text : List Char := "```json\nhello\n```\n\x7b\"a\": 1\x7d".data

/-- Counterexample for C3: the code commits to the '```json' fence and
extracts the undecodable `hello` (so the parse fails with `InvalidJson`),
while the claim's contract — first strategy yielding successfully-decodable
JSON wins — would select the trailing brace-delimited object. -/
theorem extract_json_ignores_decodability :
    extract_json c3Text = .ok "hello".data ∧
      extractJsonSpec c3Text = .ok "\x7b\"a\": 1\x7d".data ∧
      extract_json c3Text ≠ extractJsonSpec c3Text := by
  decide

/-- C3 as amended: `extract_json` tries the four strategies in order and
the first that textually applies wins, with no decodability check during
extraction — `NoJsonFound` exactly when no strategy applies — and
`parse_synthesis_response` turns a decoding failure of the committed
strategy's text into the distinct `InvalidJson` error instead of falling
through to a later strategy. -/
theorem extract_json_first_applicable :
    (∀ text, extract_json text = extractJsonFirstApplicable text) ∧
      ∀ {α : Type} (decode : List Char → Except String α) (text : List Char),
        parse_synthesis_response decode text =
          match extractJsonFirstApplicable text with
          | .error e => .error e
          | .ok j =>
              match decode j with
              | .error msg => .error (.invalidJson msg)
              | .ok raw => .ok raw := by
  have hmain : ∀ text, extract_json text = extractJsonFirstApplicable text := by
    intro text
    cases h1 : stratWhole (trimChars text) with
    | some r => simp [extract_json, extractJsonFirstApplicable, h1, List.findSome?]
    | none =>
        cases h2 : stratJsonFence (trimChars text) with
        | some r => simp [extract_json, extractJsonFirstApplicable, h1, h2, List.findSome?]
        | none =>
            cases h3 : stratAnyFence (trimChars text) with
            | some r =>
                simp [extract_json, extractJsonFirstApplicable, h1, h2, h3, List.findSome?]
            | none =>
                cases h4 : stratFirstLastBrace (trimChars text) with
                | some r =>
                    simp [extract_json, extractJsonFirstApplicable, h1, h2, h3, h4,
                      List.findSome?]
                | none =>
                    simp [extract_json, extractJsonFirstApplicable, h1, h2, h3, h4,
                      List.findSome?]
  refine ⟨hmain, ?_⟩
  intro α decode text
  rw [parse_synthesis_response, hmain]

/-! ## Pipeline orchestrator (crates/gorkd-core/src/pipeline/mod.rs, planner.rs) -/

/-- `PlannerConfig` from `planner.rs`. -/
structure PlannerConfig where
  max_queries : Nat
  default_providers : List String
deriving DecidableEq, Repr

/-- `PlannerConfig::default` from `planner.rs`. -/
def PlannerConfig.mkDefault : PlannerConfig :=
  { max_queries := 3, default_providers := ["tavily"] }

/-- `Planner::plan` from `planner.rs`. -/
def Planner.plan (cfg : PlannerConfig) (query : String) : SearchPlan :=
  SearchPlan.new [SearchQuery.new query] cfg.default_providers

/-- `PipelineError` from `pipeline/mod.rs`. -/
inductive PipelineError where
  | planning (msg : String)
  | search (msg : String)
  | synthesis (msg : String)
  | store (e : StoreError)
  | noSources
deriving DecidableEq, Repr

/-- `PipelineResult` from `pipeline/mod.rs`. -/
structure PipelineResult where
  job : ResearchJob
  sources : List Source
  answer : ResearchAnswer
deriving DecidableEq, Repr

/-- `PipelineConfig` from `pipeline/mod.rs`. -/
structure PipelineConfig where
  planner : PlannerConfig
  executor : ExecutorConfig
  synthesizer : SynthesizerConfig
deriving DecidableEq, Repr

/-- `PipelineConfig::default` from `pipeline/mod.rs`. -/
def PipelineConfig.mkDefault : PipelineConfig :=
  { planner := PlannerConfig.mkDefault, executor := ExecutorConfig.mkDefault,
    synthesizer := SynthesizerConfig.mkDefault }

/-- The trace of persistence calls the pipeline makes through the `Store`:
the `update_job` snapshots in call order, and the `store_sources`
payloads. The embedding is an ideal store whose writes always succeed
(propagation of `StoreError` is outside the verified claims). -/
structure StoreState where
  updates : List ResearchJob
  stored_sources : List (List Source)
deriving DecidableEq, Repr

/-- A store with no recorded calls. -/
def StoreState.empty : StoreState := { updates := [], stored_sources := [] }

/-- Record an `update_job` call. -/
def StoreState.update_job (st : StoreState) (job : ResearchJob) : StoreState :=
  { st with updates := st.updates ++ [job] }

/-- Record a `store_sources` call. -/
def StoreState.store_sources (st : StoreState) (sources : List Source) : StoreState :=
  { st with stored_sources := st.stored_sources ++ [sources] }

/-- `Pipeline::run` from `pipeline/mod.rs`: transition to `Planning` and
persist, plan, transition to `Searching` and persist, execute the plan
(mapping a search error into `PipelineError::Search` of its display text
and returning), fail the job with "No sources found for query" when the
source list is empty, otherwise persist the sources, transition to
`Synthesizing` and persist, synthesize (mapping an LLM error into
`PipelineError::Synthesis` of its display text and returning), and finally
transition to `Completed` and persist. -/
def Pipeline.run (cfg : PipelineConfig) (searchProvider : SearchCapability)
    (llm : String → List Source → Except LlmError ResearchAnswer)
    (store : StoreState) (job : ResearchJob) :
    Except PipelineError PipelineResult × StoreState :=
  let job1 := job.transition_to .planning
  let store1 := store.update_job job1
  let search_plan := Planner.plan cfg.planner job1.query
  let job2 := job1.transition_to .searching
  let store2 := store1.update_job job2
  match Executor.execute cfg.executor searchProvider search_plan with
  | .error e => (.error (.search e.display), store2)
  | .ok sources =>
      if sources.isEmpty then
        let job3 := job2.fail "No sources found for query"
        let store3 := store2.update_job job3
        (.error .noSources, store3)
      else
        let store3 := store2.store_sources sources
        let job3 := job2.transition_to .synthesizing
        let store4 := store3.update_job job3
        match (Synthesizer.synthesize cfg.synthesizer
            (fun q s (u : Unit) => (llm q s, u)) job3.query sources ()).1 with
        | .error e => (.error (.synthesis e.display), store4)
        | .ok answer =>
            let job4 := job3.transition_to .completed
            let store5 := store4.update_job job4
            (.ok { job := job4, sources := sources, answer := answer }, store5)

/-! ## C1 -/

def c1Job : ResearchJob :=
  { query := "What is Rust?", status := .pending, error_message := none }

def c1SearchRateLimited : SearchCapability := fun _ => .error (.rateLimited "tavily")

def c1SearchOk : SearchCapability :=
  fun _ => .ok [{ url := "https://example.com", title := "T", snippet := "S", score := 1 }]

def c1LlmOk : String → List Source → Except LlmError ResearchAnswer :=
  fun _ _ => .ok (ResearchAnswer.new "s" "d" .high "m")

def c1LlmRateLimited : String → List Source → Except LlmError ResearchAnswer :=
  fun _ _ => .error .rateLimited

/-- C1 evidence: when the search stage (resp. the synthesis stage) returns
a provider error, `Pipeline::run` does return a pipeline-level error
carrying the error's display text, but it never performs the claimed
`Failed` transition: no persisted job snapshot has status `Failed` or an
error message, and the last persisted status remains `Searching` (resp.
`Synthesizing`). Only the empty-source-list branch fails the job. -/
theorem pipeline_provider_error_leaves_job_unfailed :
    ResearchJob.new "What is Rust?" = .ok c1Job ∧
      (Pipeline.run PipelineConfig.mkDefault c1SearchRateLimited c1LlmOk
          StoreState.empty c1Job).1 =
        .error (.search "rate limited by provider: tavily") ∧
      ((Pipeline.run PipelineConfig.mkDefault c1SearchRateLimited c1LlmOk
          StoreState.empty c1Job).2.updates.map ResearchJob.status =
        [.planning, .searching]) ∧
      (∀ j ∈ (Pipeline.run PipelineConfig.mkDefault c1SearchRateLimited c1LlmOk
          StoreState.empty c1Job).2.updates,
        j.status ≠ .failed ∧ j.error_message = none) ∧
      (Pipeline.run PipelineConfig.mkDefault c1SearchOk c1LlmRateLimited
          StoreState.empty c1Job).1 =
        .error (.synthesis "rate limited by provider") ∧
      ((Pipeline.run PipelineConfig.mkDefault c1SearchOk c1LlmRateLimited
          StoreState.empty c1Job).2.updates.map ResearchJob.status =
        [.planning, .searching, .synthesizing]) ∧
      (∀ j ∈ (Pipeline.run PipelineConfig.mkDefault c1SearchOk c1LlmRateLimited
          StoreState.empty c1Job).2.updates,
        j.status ≠ .failed ∧ j.error_message = none) := by
  decide

end Gorkd
